import Mathlib

/-!
Verification development for `dorthy/json.py`: a recursive JSON-tree
serializer for Python object graphs, guarded by a cycle-detecting memo
(`prevent_cycle`), with blacklist (`ignore_attributes`) and relation
whitelist (`include_relationships`) path filtering.

The embedding models the Python heap explicitly: a `Ref` is an object
identity (the result of `id(obj)`), a `Heap` maps identities to object
descriptions, and object graphs (including cyclic ones) are expressed by
`Ref`-indirection.  The mutated closure variable `memo` of
`prevent_cycle` becomes explicit state threaded through `dumps`, and
recursion is bounded by fuel (Python recursion has no such bound; every
theorem quantifies over or instantiates sufficient fuel).
-/

/-- Object identity: the value of Python's `id(obj)`. -/
abbrev Ref := Nat

/-- `PRIMITIVE_TYPES = (bool, int, float, str)` (json.py line 12).
Floats are carried as opaque literals (their text); `dumps` never computes
with them. -/
inductive Prim where
  | b (v : Bool)
  | i (v : Int)
  | f (lit : String)
  | s (v : String)
deriving DecidableEq

/-- The `_json` attribute of a self-describing object (json.py lines 59-66):
a zero-argument callable (modelled by the identity of the object it
returns), a plain string, or anything else (invalid). -/
inductive JsonCap where
  | callableRet (r : Ref)
  | strVal (s : String)
  | invalid
deriving DecidableEq

/-- The `_as_dict` attribute (json.py lines 67-72): a zero-argument
callable (modelled by the identity of the mapping it materializes), or a
non-callable value. -/
inductive DictCap where
  | callableRet (r : Ref)
  | notCallable
deriving DecidableEq

/-- A value the `_transients` attribute can hold or return
(json.py lines 126-140): a string, an iterable of strings, or some other
truthy object contributing nothing. -/
inductive TransVal where
  | vstr (s : String)
  | vlist (ss : List String)
  | vother
deriving DecidableEq

/-- The `_transients` attribute: `callable` records whether it is a
zero-argument callable (then `val` is the call's result) or a plain value. -/
structure TransAttr where
  callable : Bool
  val : TransVal
deriving DecidableEq

/-- Result of fetching one attribute during entity reflection
(json.py lines 112-119): a data value, a value for which
`_is_visible_type` is false (function/method/class/module/descriptor/...),
or a fetch that raises `AttributeError`. -/
inductive AttrVal where
  | val (r : Ref)
  | nonData
  | missing
deriving DecidableEq

/-- A Python object as `dumps` observes it, one field per duck-typed
capability probed by the dispatch chain (json.py lines 53-103).  Any
combination of capabilities may be present, as in Python; the dispatch
order decides which one is used.  `dirAttrs` is `dir(obj)` paired with
each attribute's fetch result; `sqlaRels` is `some rels` when
`sqlalchemy.inspect(obj)` succeeds with relationship names `rels`, `none`
when it raises `NoInspectionAvailable`. -/
structure PyObj where
  isNone : Bool := false
  prim : Option Prim := none
  bytesVal : Option String := none
  jsonAttr : Option JsonCap := none
  asDict : Option DictCap := none
  dateIso : Option String := none
  mapping : Option (List (String × Ref)) := none
  iterElems : Option (List Ref) := none
  dirAttrs : List (String × AttrVal) := []
  transAttr : Option TransAttr := none
  sqlaRels : Option (List String) := none
  strRepr : String := ""
  tyName : String := ""
deriving DecidableEq

/-- The Python heap: every identity resolves to an object description. -/
abbrev Heap := Ref → PyObj

/-- The `prevent_cycle` memo: an ordered dict from object identity to the
recorded display name, used as a stack (newest entry first; `popitem`
removes the newest). -/
abbrev Memo := List (Ref × String)

/-- The tree of already-serializable values that `dumps` returns (to be
handed to the external JSON text encoder).  `raw r` is the unvalidated
object returned by a callable `_json` capability (json.py line 62). -/
inductive SVal where
  | null
  | b (v : Bool)
  | i (v : Int)
  | f (lit : String)
  | s (v : String)
  | list (xs : List SVal)
  | dict (kvs : List (String × SVal))
  | raw (r : Ref)

/-- Errors raised by `dumps`: `ValueError msg` for the source's
`raise ValueError(...)`; `fuelOut` is the artifact of bounding the
unbounded Python recursion by fuel. -/
inductive DumpErr where
  | valueError (msg : String)
  | fuelOut
deriving DecidableEq

/-- Modelled from the spec: `native_str` (dorthy.utils, not under src/)
normalizes a value to text.  Byte strings are modelled as already carrying
their decoded text (§4.2 step 3: decode under the declared encoding), so
on text this is the identity. -/
def native_str (s : String) : String := s

/-- Split a character list on underscores (kernel-evaluable model of
`str.split`). -/
def splitUnderscore (cs : List Char) : List (List Char) :=
  match cs with
  | [] => [[]]
  | c :: rest =>
    let parts := splitUnderscore rest
    if c = '_' then [] :: parts
    else
      match parts with
      | [] => [[c]]
      | p :: ps => (c :: p) :: ps

/-- Uppercase the first character of a word. -/
def capitalizeWord : List Char → List Char
  | [] => []
  | c :: cs => c.toUpper :: cs

/-- Modelled from the spec: `camel_encode` (dorthy.utils, not under src/)
recases a snake_case name to camelCase for the output key only (§4.2
step 7). -/
def camel_encode (s : String) : String :=
  match splitUnderscore s.data with
  | [] => s
  | w :: ws => ⟨w ++ (ws.map capitalizeWord).flatten⟩

/-- `_append_path` (json.py lines 143-147): extend the dotted structural
path, treating an empty basename as falsy. -/
def _append_path (basename name : String) : String :=
  if basename = "" then native_str name else native_str (basename ++ "." ++ name)

/-- Python `name.startswith(prefixStr)`, modelled on the character lists
so the kernel can evaluate it. -/
def pyStartsWith (s prefixStr : String) : Bool :=
  prefixStr.data.isPrefixOf s.data

/-- `_is_visible_attribute` (json.py lines 150-152). -/
def _is_visible_attribute (name : String) (transients : List String) : Bool :=
  !(pyStartsWith name "_" || transients.contains name)

/-- `_check_whitelist` (json.py lines 155-157): true when there is no
whitelist, or the path is a member of it. -/
def _check_whitelist (collection : String) (include_relationships : Option (List String)) : Bool :=
  match include_relationships with
  | none => true
  | some l => l.contains collection

/-- `_is_blacklisted_attribute` (json.py lines 160-162): true when a
blacklist was supplied and the path is a member of it. -/
def _is_blacklisted_attribute (attrPath : String) (ignore_attributes : Option (List String)) : Bool :=
  match ignore_attributes with
  | none => false
  | some l => l.contains attrPath

/-- `_is_visible_type` (json.py lines 165-179): false exactly when one of
the `inspect.is*` checks holds, which `AttrVal.nonData` models. -/
def _is_visible_type : AttrVal → Bool
  | .nonData => false
  | _ => true

/-- Python truthiness of a `_transients` value. -/
def pyTruthyTrans : TransVal → Bool
  | .vstr s => !s.isEmpty
  | .vlist l => !l.isEmpty
  | .vother => true

/-- `_get_transients` (json.py lines 126-140): read `_transients`
(calling it if callable), then collect a string as a singleton or an
iterable's members, guarded by the source's two truthiness checks
(a callable attribute object is always truthy). -/
def _get_transients (obj : PyObj) : List String :=
  match obj.transAttr with
  | none => []
  | some ta =>
    if ta.callable || pyTruthyTrans ta.val then
      if pyTruthyTrans ta.val then
        match ta.val with
        | .vstr s => [s]
        | .vlist ss => ss
        | .vother => []
      else []
    else []

/-- The sqlalchemy special handling (json.py lines 94-101): on successful
inspection the mapper's relationship names. -/
def entityRelationships (obj : PyObj) : List String :=
  match obj.sqlaRels with
  | some rels => rels
  | none => []

/-- The transient set after the sqlalchemy special handling
(json.py line 98): successful inspection adds `metadata`. -/
def entityTransients (obj : PyObj) : List String :=
  match obj.sqlaRels with
  | some _ => "metadata" :: _get_transients obj
  | none => _get_transients obj

/-- `isinstance(obj, (collections.Iterable, collections.Mapping, dict))`
(json.py line 39).  In Python, mappings, sequences, byte strings and text
strings are all `Iterable`. -/
def pyIsIterable (obj : PyObj) : Bool :=
  obj.iterElems.isSome || obj.mapping.isSome || obj.bytesVal.isSome ||
    (match obj.prim with
     | some (.s _) => true
     | _ => false)

/-- How Python formats a type object, e.g. `<class \x27list\x27>`:
the display a memo entry gets when the stored name is `type(obj)`
(json.py line 30). -/
def pyTypeStr (obj : PyObj) : String :=
  "<class \x27" ++ obj.tyName ++ "\x27>"

/-- `basename or type(obj)`: the subject of the circular-reference message
(json.py line 42) and the non-root memo display name (json.py line 30). -/
def displaySubject (basename : String) (obj : PyObj) : String :=
  if basename = "" then pyTypeStr obj else basename

/-- The display name recorded in the memo on entry (json.py lines 27-30):
`basename or \x27$root\x27` for the first (root) entry, `basename or
type(obj)` afterwards. -/
def memoDisplay (memo : Memo) (basename : String) (obj : PyObj) : String :=
  if memo.isEmpty then (if basename = "" then "$root" else basename)
  else displaySubject basename obj

/-- The circular-reference message (json.py line 42):
`"Circular reference detected: {} {} parent {}".format(...)`. -/
def circularMessage (subject verb parentName : String) : String :=
  "Circular reference detected: " ++ subject ++ " " ++ verb ++ " parent " ++ parentName

/-- Memo membership test `_oid not in memo` / lookup `memo[_oid]`
(json.py lines 26 and 40). -/
def memoLookup (memo : Memo) (r : Ref) : Option String :=
  match memo with
  | [] => none
  | (r0, n0) :: rest => if r0 = r then some n0 else memoLookup rest r

/-- Python dict assignment `values[name] = v`: overwrite in place if the
key exists, else append (insertion order preserved). -/
def dictInsert (kvs : List (String × SVal)) (k : String) (v : SVal) : List (String × SVal) :=
  match kvs with
  | [] => [(k, v)]
  | (k0, v0) :: rest => if k0 = k then (k0, v) :: rest else (k0, v0) :: dictInsert rest k v

/-- The recursive serializer as seen by the loop bodies: a child call
takes the child's identity, the child's structural path and the current
memo (the heap, flags and policies are fixed at the call site). -/
abbrev RecFn := Ref → String → Memo → Except DumpErr SVal × Memo

/-- The list comprehension of the iterable branch (json.py line 86):
serialize each element with the parent's own `basename`, propagating the
first error. -/
def dumpElems (f : RecFn) (basename : String) : List Ref → Memo → Except DumpErr (List SVal) × Memo
  | [], memo => (.ok [], memo)
  | v :: rest, memo =>
    match f v basename memo with
    | (.ok j, memo1) =>
      match dumpElems f basename rest memo1 with
      | (.ok js, memo2) => (.ok (j :: js), memo2)
      | (.error e, memo2) => (.error e, memo2)
    | (.error e, memo1) => (.error e, memo1)

/-- The guard of the mapping branch (json.py line 82):
`not ignore_attributes or new_basename not in ignore_attributes`
(an empty blacklist is falsy). -/
def mappingIncludesKey (ignore_attributes : Option (List String)) (p : String) : Bool :=
  match ignore_attributes with
  | none => true
  | some l => l.isEmpty || !(l.contains p)

/-- The mapping branch loop (json.py lines 76-84): normalize the key,
extend the path, recase the output key only, skip blacklisted child
paths, recurse on the rest. -/
def dumpMapItems (f : RecFn) (basename : String) (camel_case : Bool)
    (ignore_attributes : Option (List String)) :
    List (String × Ref) → List (String × SVal) → Memo → Except DumpErr (List (String × SVal)) × Memo
  | [], values, memo => (.ok values, memo)
  | (name, v) :: rest, values, memo =>
    let name1 := native_str name
    let new_basename := _append_path basename name1
    let outName := if camel_case then camel_encode name1 else name1
    if mappingIncludesKey ignore_attributes new_basename then
      match f v new_basename memo with
      | (.ok j, memo1) =>
        dumpMapItems f basename camel_case ignore_attributes rest (dictInsert values outName j) memo1
      | (.error e, memo1) => (.error e, memo1)
    else
      dumpMapItems f basename camel_case ignore_attributes rest values memo

/-- The entity reflection loop (json.py lines 105-119): for each name of
`dir(obj)`, extend the path; skip blacklisted paths, private/transient
names, and declared relationships failing the whitelist check; skip
attributes whose fetch raises `AttributeError` (`.missing`) and fetched
values for which `_is_visible_type` is false (`.nonData`); otherwise
recurse and store under the (possibly recased) key. -/
def dumpAttrs (f : RecFn) (basename : String) (camel_case : Bool)
    (ignore_attributes include_relationships : Option (List String))
    (relationships transients : List String) :
    List (String × AttrVal) → List (String × SVal) → Memo → Except DumpErr (List (String × SVal)) × Memo
  | [], values, memo => (.ok values, memo)
  | (name, av) :: rest, values, memo =>
    let new_basename := _append_path basename name
    if !(_is_blacklisted_attribute new_basename ignore_attributes) then
      if _is_visible_attribute name transients then
        if relationships.contains name && !(_check_whitelist new_basename include_relationships) then
          dumpAttrs f basename camel_case ignore_attributes include_relationships
            relationships transients rest values memo
        else
          match av with
          | .missing =>
            dumpAttrs f basename camel_case ignore_attributes include_relationships
              relationships transients rest values memo
          | .nonData =>
            dumpAttrs f basename camel_case ignore_attributes include_relationships
              relationships transients rest values memo
          | .val r =>
            let outName := if camel_case then camel_encode name else name
            match f r new_basename memo with
            | (.ok j, memo1) =>
              dumpAttrs f basename camel_case ignore_attributes include_relationships
                relationships transients rest (dictInsert values outName j) memo1
            | (.error e, memo1) => (.error e, memo1)
      else
        dumpAttrs f basename camel_case ignore_attributes include_relationships
          relationships transients rest values memo
    else
      dumpAttrs f basename camel_case ignore_attributes include_relationships
        relationships transients rest values memo

/-- Primitive emission (json.py line 56): `return obj`. -/
def primToSVal : Prim → SVal
  | .b v => .b v
  | .i v => .i v
  | .f lit => .f lit
  | .s v => .s v

/-- The body of `dumps` (json.py lines 53-123) without the
`prevent_cycle` wrapper: the ordered dispatch chain — None, primitive,
bytes, `_json`, `_as_dict`, date/datetime, mapping, iterable, entity
reflection — with the recursive calls abstracted as `f`. -/
def dumpsBody (f : RecFn) (obj : PyObj) (basename : String) (camel_case : Bool)
    (ignore_attributes include_relationships : Option (List String)) (memo : Memo) :
    Except DumpErr SVal × Memo :=
  if obj.isNone then (.ok .null, memo)
  else
    match obj.prim with
    | some p => (.ok (primToSVal p), memo)
    | none =>
    match obj.bytesVal with
    | some bs => (.ok (.s (native_str bs)), memo)
    | none =>
    match obj.jsonAttr with
    | some jc =>
      (match jc with
       | .callableRet res => (.ok (.raw res), memo)
       | .strVal s => (.ok (.s s), memo)
       | .invalid => (.error (.valueError "Invalid _json attribute found on object"), memo))
    | none =>
    match obj.asDict with
    | some dc =>
      (match dc with
       | .callableRet d => f d basename memo
       | .notCallable => (.error (.valueError "Invalid _as_dict attribute found on object"), memo))
    | none =>
    match obj.dateIso with
    | some iso => (.ok (.s iso), memo)
    | none =>
    match obj.mapping with
    | some items =>
      (match dumpMapItems f basename camel_case ignore_attributes items [] memo with
       | (.ok kvs, memo1) => (.ok (.dict kvs), memo1)
       | (.error e, memo1) => (.error e, memo1))
    | none =>
    match obj.iterElems with
    | some elems =>
      (match dumpElems f basename elems memo with
       | (.ok js, memo1) => (.ok (.list js), memo1)
       | (.error e, memo1) => (.error e, memo1))
    | none =>
      match dumpAttrs f basename camel_case ignore_attributes include_relationships
          (entityRelationships obj) (entityTransients obj) obj.dirAttrs [] memo with
      | (.ok kvs, memo1) =>
        if kvs.isEmpty then (.ok (.s obj.strRepr), memo1) else (.ok (.dict kvs), memo1)
      | (.error e, memo1) => (.error e, memo1)

/-- The guarded `dumps` (json.py lines 17-48): `prevent_cycle` applied to
the body.  If the identity is already on the memo, clear it and raise the
circular-reference `ValueError`; otherwise record the display name, run
the body, and pop the newest entry on success (`memo.popitem()`) or clear
the memo on any propagating error (`except: memo.clear(); raise`).
Recursion is bounded by fuel; exhaustion reports `DumpErr.fuelOut`
leaving the memo untouched (no Python counterpart). -/
def dumps (heap : Heap) : Nat → Ref → String → Bool → Option (List String) → Option (List String) →
    Memo → Except DumpErr SVal × Memo
  | 0, _, _, _, _, _, memo => (.error .fuelOut, memo)
  | fuel + 1, r, basename, camel_case, ignore_attributes, include_relationships, memo =>
    let obj := heap r
    match memoLookup memo r with
    | some memo_name =>
      let verb := if pyIsIterable obj then "contains" else "is"
      (.error (.valueError (circularMessage (displaySubject basename obj) verb memo_name)), [])
    | none =>
      let memo1 := (r, memoDisplay memo basename obj) :: memo
      match dumpsBody
          (fun v nb m => dumps heap fuel v nb camel_case ignore_attributes include_relationships m)
          obj basename camel_case ignore_attributes include_relationships memo1 with
      | (.ok j, memo2) => (.ok j, memo2.tail)
      | (.error e, _) => (.error e, [])

/-- A bare primitive object. -/
def primObj (p : Prim) : PyObj := { prim := some p }

/-- A list object with the given element identities. -/
def listObj (elems : List Ref) : PyObj := { iterElems := some elems, tyName := "list" }

/-- Heap for the C5 witness, success case: a lone integer. -/
def heapC5ok : Heap := fun _ => primObj (.i 5)

/-- Heap for the C5 witness, error case: a list containing itself. -/
def heapC5cyc : Heap := fun _ => listObj [0]

/-- Heap for the C3 witness: a list containing itself. -/
def heapC3cyc : Heap := fun _ => listObj [0]

/-- Heap for the C2 witness: a list holding the same sublist twice;
the sublist holds an integer. -/
def heapC2w : Heap := fun r =>
  if r = 0 then listObj [1, 1]
  else if r = 1 then listObj [2]
  else primObj (.i 7)

/-- Heap for the C7 witness: a two-element list of primitives, plus an
empty list. -/
def heapC7w : Heap := fun r =>
  if r = 0 then listObj [1, 2]
  else if r = 1 then primObj (.i 1)
  else if r = 2 then primObj (.s "a")
  else listObj []

/-- The nine shape variants of the dispatch chain, in source order
(json.py lines 53-90 and the entity fallthrough). -/
inductive Variant where
  | vnull
  | vprim
  | vbytes
  | vself
  | vdictconv
  | vdate
  | vmapping
  | viter
  | ventity
deriving DecidableEq, Fintype

/-- Position of a variant in the dispatch order. -/
def variantIdx : Variant → Nat
  | .vnull => 0
  | .vprim => 1
  | .vbytes => 2
  | .vself => 3
  | .vdictconv => 4
  | .vdate => 5
  | .vmapping => 6
  | .viter => 7
  | .ventity => 8

/-- Whether an object satisfies a variant's membership test, i.e. the
condition of the corresponding branch of the dispatch chain (entity is
the unconditional fallthrough). -/
def matchesVariant (obj : PyObj) : Variant → Bool
  | .vnull => obj.isNone
  | .vprim => obj.prim.isSome
  | .vbytes => obj.bytesVal.isSome
  | .vself => obj.jsonAttr.isSome
  | .vdictconv => obj.asDict.isSome
  | .vdate => obj.dateIso.isSome
  | .vmapping => obj.mapping.isSome
  | .viter => obj.iterElems.isSome
  | .ventity => true

/-- The classification an object receives from the dispatch chain: the
first matching variant in source order (json.py lines 53-90). -/
def classify (obj : PyObj) : Variant :=
  if obj.isNone then .vnull
  else if obj.prim.isSome then .vprim
  else if obj.bytesVal.isSome then .vbytes
  else if obj.jsonAttr.isSome then .vself
  else if obj.asDict.isSome then .vdictconv
  else if obj.dateIso.isSome then .vdate
  else if obj.mapping.isSome then .vmapping
  else if obj.iterElems.isSome then .viter
  else .ventity

/-- The dispatch chain as a function of the eight branch conditions
(`classify` factors through it definitionally). -/
def classifyBits (b0 b1 b2 b3 b4 b5 b6 b7 : Bool) : Variant :=
  if b0 then .vnull
  else if b1 then .vprim
  else if b2 then .vbytes
  else if b3 then .vself
  else if b4 then .vdictconv
  else if b5 then .vdate
  else if b6 then .vmapping
  else if b7 then .viter
  else .ventity

/-- The membership tests as functions of the eight branch conditions
(`matchesVariant` factors through it definitionally). -/
def matchesBits (b0 b1 b2 b3 b4 b5 b6 b7 : Bool) : Variant → Bool
  | .vnull => b0
  | .vprim => b1
  | .vbytes => b2
  | .vself => b3
  | .vdictconv => b4
  | .vdate => b5
  | .vmapping => b6
  | .viter => b7
  | .ventity => true

/-- The observable outcome of a guarded call that takes the
self-describing (`_json`) branch: a callable emits its unvalidated
result, a string is emitted as a string, anything else raises the
invalid-`_json` ValueError (after which the guard clears the memo). -/
def selfDescribingStep (jc : JsonCap) (memo : Memo) : Except DumpErr SVal × Memo :=
  match jc with
  | .callableRet res => (.ok (.raw res), memo)
  | .strVal s => (.ok (.s s), memo)
  | .invalid => (.error (.valueError "Invalid _json attribute found on object"), [])

/-- Heap for the C4 counterexample and witness: a lone integer. -/
def heapC4 : Heap := fun _ => primObj (.i 5)

/-- Heap for the C10 witness: an object whose `_as_dict` attribute is not
callable. -/
def heapC10 : Heap := fun _ => { asDict := some DictCap.notCallable, tyName := "Broken" }

/-- An object exposing both the self-representation (`_json`) and the
dict-conversion (`_as_dict`) capabilities — and, for good measure, also
mapping/iterable shape and a reflectable attribute. -/
def objC6 : PyObj :=
  { jsonAttr := some (JsonCap.strVal "selfrep"), asDict := some (DictCap.callableRet 1),
    mapping := some [("k", 1)], iterElems := some [1], dirAttrs := [("name", AttrVal.val 1)],
    tyName := "Both", strRepr := "both" }

/-- Heap for the C6 witness. -/
def heapC6 : Heap := fun r => if r = 0 then objC6 else primObj (.i 1)

/-- Heap for the C9 witness: an opaque entity whose only attribute is
private (everything filtered, textual fallback), and an entity with one
retained attribute. -/
def heapC9 : Heap := fun r =>
  if r = 0 then { dirAttrs := [("_hidden", AttrVal.val 1)], strRepr := "Opaque()", tyName := "Opaque" }
  else if r = 1 then primObj (.i 9)
  else { dirAttrs := [("name", AttrVal.val 1)], strRepr := "X", tyName := "E" }

/-- Heap for the C1 counterexample: an entity with a declared sqlalchemy
relationship `children` and a plain attribute `name`. -/
def heapC1 : Heap := fun r =>
  if r = 0 then
    { dirAttrs := [("children", AttrVal.val 1), ("name", AttrVal.val 2)],
      sqlaRels := some ["children"], tyName := "Parent", strRepr := "parent" }
  else if r = 1 then primObj (.i 7)
  else primObj (.s "Dad")

/-- Heap for the C8 exact-path test: a parent entity with relationship
`children` (a list of one child entity), the child with relationship
`siblings`. -/
def heapC8 : Heap := fun r =>
  if r = 0 then
    { dirAttrs := [("children", AttrVal.val 1), ("name", AttrVal.val 3)],
      sqlaRels := some ["children"], tyName := "Parent", strRepr := "dad" }
  else if r = 1 then listObj [2]
  else if r = 2 then
    { dirAttrs := [("name", AttrVal.val 4), ("siblings", AttrVal.val 5)],
      sqlaRels := some ["siblings"], tyName := "Child", strRepr := "kid" }
  else if r = 3 then primObj (.s "Dad")
  else if r = 4 then primObj (.s "Kid")
  else listObj []

/-! ### Shared lemmas about the guard state and the loops -/

/-- `needle` occurs as a contiguous substring of `hay` (stated on the
character lists). -/
def strContains (hay needle : String) : Prop :=
  needle.data <:+: hay.data

lemma circularMessage_contains (a v p : String) :
    strContains (circularMessage a v p) a ∧ strContains (circularMessage a v p) v ∧
      strContains (circularMessage a v p) p := by
  refine ⟨⟨"Circular reference detected: ".data, (" " ++ v ++ " parent " ++ p).data, ?_⟩,
          ⟨("Circular reference detected: " ++ a ++ " ").data, (" parent " ++ p).data, ?_⟩,
          ⟨("Circular reference detected: " ++ a ++ " " ++ v ++ " parent ").data, ([] : List Char), ?_⟩⟩ <;>
    simp [circularMessage, String.data_append, List.append_assoc]

/-- An element-wise successful, memo-preserving serialization of the
elements makes the iterable loop succeed in order. -/
lemma dumpElems_forall2 {f : RecFn} {b : String} :
    ∀ {elems : List Ref} {js : List SVal} {memo : Memo},
      List.Forall₂ (fun e j => f e b memo = (.ok j, memo)) elems js →
      dumpElems f b elems memo = (.ok js, memo) := by
  intro elems js memo h
  induction h with
  | nil => rfl
  | cons h1 hrest ih => simp only [dumpElems, h1, ih]

/-- If every child call restores the memo on success, so does the
iterable loop. -/
lemma dumpElems_memo_ok {f : RecFn}
    (hf : ∀ v b m j m', f v b m = (.ok j, m') → m' = m) (b : String) :
    ∀ (elems : List Ref) (memo : Memo) (js : List SVal) (m' : Memo),
      dumpElems f b elems memo = (.ok js, m') → m' = memo := by
  intro elems
  induction elems with
  | nil =>
    intro memo js m' h
    injection h with h1 h2
    exact h2.symm
  | cons v rest ih =>
    intro memo js m' h
    simp only [dumpElems] at h
    split at h
    · rename_i j memo1 heq
      split at h
      · rename_i js2 memo2 heq2
        injection h with h1 h2
        exact h2.symm.trans ((ih memo1 js2 memo2 heq2).trans (hf v b memo j memo1 heq))
      · rename_i e memo2 heq2
        injection h with h1 h2
        exact Except.noConfusion h1
    · rename_i e memo1 heq
      injection h with h1 h2
      exact Except.noConfusion h1

/-- If every child call restores the memo on success, so does the
mapping loop. -/
lemma dumpMapItems_memo_ok {f : RecFn}
    (hf : ∀ v b m j m', f v b m = (.ok j, m') → m' = m) (b : String) (c : Bool)
    (ig : Option (List String)) :
    ∀ (items : List (String × Ref)) (values : List (String × SVal)) (memo : Memo)
      (kvs : List (String × SVal)) (m' : Memo),
      dumpMapItems f b c ig items values memo = (.ok kvs, m') → m' = memo := by
  intro items
  induction items with
  | nil =>
    intro values memo kvs m' h
    injection h with h1 h2
    exact h2.symm
  | cons item rest ih =>
    intro values memo kvs m' h
    obtain ⟨name, v⟩ := item
    simp only [dumpMapItems] at h
    split at h
    · split at h
      · rename_i j memo1 heq
        exact (ih _ memo1 kvs m' h).trans (hf v _ memo j memo1 heq)
      · rename_i e memo1 heq
        injection h with h1 h2
        exact Except.noConfusion h1
    · exact ih _ memo kvs m' h

/-- If every child call restores the memo on success, so does the entity
reflection loop. -/
lemma dumpAttrs_memo_ok {f : RecFn}
    (hf : ∀ v b m j m', f v b m = (.ok j, m') → m' = m) (b : String) (c : Bool)
    (ig incl : Option (List String)) (rels trans : List String) :
    ∀ (attrs : List (String × AttrVal)) (values : List (String × SVal)) (memo : Memo)
      (kvs : List (String × SVal)) (m' : Memo),
      dumpAttrs f b c ig incl rels trans attrs values memo = (.ok kvs, m') → m' = memo := by
  intro attrs
  induction attrs with
  | nil =>
    intro values memo kvs m' h
    injection h with h1 h2
    exact h2.symm
  | cons attr rest ih =>
    intro values memo kvs m' h
    obtain ⟨name, av⟩ := attr
    simp only [dumpAttrs] at h
    split at h
    · split at h
      · split at h
        · exact ih _ memo kvs m' h
        · split at h
          · exact ih _ memo kvs m' h
          · exact ih _ memo kvs m' h
          · split at h
            · rename_i j memo1 heq
              exact (ih _ memo1 kvs m' h).trans (hf _ _ memo j memo1 heq)
            · rename_i e memo1 heq
              injection h with h1 h2
              exact Except.noConfusion h1
      · exact ih _ memo kvs m' h
    · exact ih _ memo kvs m' h

/-- If every child call restores the memo on success, the dispatch body
does too. -/
lemma dumpsBody_memo_ok {f : RecFn}
    (hf : ∀ v b m j m', f v b m = (.ok j, m') → m' = m)
    (obj : PyObj) (b : String) (c : Bool) (ig incl : Option (List String))
    (memo : Memo) (j : SVal) (m' : Memo)
    (h : dumpsBody f obj b c ig incl memo = (.ok j, m')) : m' = memo := by
  unfold dumpsBody at h
  split at h
  · injection h with h1 h2; exact h2.symm
  · split at h
    · injection h with h1 h2; exact h2.symm
    · split at h
      · injection h with h1 h2; exact h2.symm
      · split at h
        · split at h
          · injection h with h1 h2; exact h2.symm
          · injection h with h1 h2; exact h2.symm
          · injection h with h1 h2; exact Except.noConfusion h1
        · split at h
          · split at h
            · exact hf _ _ _ _ _ h
            · injection h with h1 h2; exact Except.noConfusion h1
          · split at h
            · injection h with h1 h2; exact h2.symm
            · split at h
              · split at h
                · rename_i kvs memo1 heq
                  injection h with h1 h2
                  exact h2.symm.trans (dumpMapItems_memo_ok hf _ _ _ _ _ _ _ _ heq)
                · rename_i e memo1 heq
                  injection h with h1 h2
                  exact Except.noConfusion h1
              · split at h
                · split at h
                  · rename_i js memo1 heq
                    injection h with h1 h2
                    exact h2.symm.trans (dumpElems_memo_ok hf _ _ _ _ _ heq)
                  · rename_i e memo1 heq
                    injection h with h1 h2
                    exact Except.noConfusion h1
                · split at h
                  · rename_i kvs memo1 heq
                    split at h
                    · injection h with h1 h2
                      exact h2.symm.trans (dumpAttrs_memo_ok hf _ _ _ _ _ _ _ _ _ _ _ heq)
                    · injection h with h1 h2
                      exact h2.symm.trans (dumpAttrs_memo_ok hf _ _ _ _ _ _ _ _ _ _ _ heq)
                  · rename_i e memo1 heq
                    injection h with h1 h2
                    exact Except.noConfusion h1

/-- On a successful return, `dumps` restores the memo it was given: the
entry pushed for the call is popped again. -/
lemma dumps_memo_ok (heap : Heap) :
    ∀ (fuel : Nat) (r : Ref) (b : String) (c : Bool) (ig incl : Option (List String))
      (memo : Memo) (j : SVal) (m' : Memo),
      dumps heap fuel r b c ig incl memo = (.ok j, m') → m' = memo := by
  intro fuel
  induction fuel with
  | zero =>
    intro r b c ig incl memo j m' h
    injection h with h1 h2
    exact Except.noConfusion h1
  | succ fuel ih =>
    intro r b c ig incl memo j m' h
    simp only [dumps] at h
    split at h
    · injection h with h1 h2
      exact Except.noConfusion h1
    · split at h
      · rename_i j2 memo2 heq
        injection h with h1 h2
        have hm2 : memo2 = (r, memoDisplay memo b (heap r)) :: memo :=
          dumpsBody_memo_ok (fun v bb m jj mm hh => ih v bb c ig incl m jj mm hh)
            (heap r) b c ig incl _ j2 memo2 heq
        rw [← h2, hm2]
        rfl
      · injection h with h1 h2
        exact Except.noConfusion h1

/-- When the object is classified as a non-mapping iterable (all earlier
capabilities absent), the body runs the element loop at the parent's own
path. -/
lemma dumpsBody_iter {f : RecFn} {obj : PyObj} {b : String} {c : Bool}
    {ig incl : Option (List String)} {memo : Memo} {elems : List Ref}
    (h1 : obj.isNone = false) (h2 : obj.prim = none) (h3 : obj.bytesVal = none)
    (h4 : obj.jsonAttr = none) (h5 : obj.asDict = none) (h6 : obj.dateIso = none)
    (h7 : obj.mapping = none) (h8 : obj.iterElems = some elems) :
    dumpsBody f obj b c ig incl memo =
      (match dumpElems f b elems memo with
       | (.ok js, memo1) => (.ok (.list js), memo1)
       | (.error e, memo1) => (.error e, memo1)) := by
  unfold dumpsBody
  simp [h1, h2, h3, h4, h5, h6, h7, h8]

/-- C5: the ancestry stack is restored on every exit of the guarded
serializer: a successful call returns with the memo it was given (the
entry pushed for the call is popped), and any error at positive fuel
leaves the memo empty (cleared before the circular-reference ValueError
is raised, and cleared when any other failure propagates). -/
theorem claim_C5 (heap : Heap) (fuel : Nat) (r : Ref) (b : String) (c : Bool)
    (ig incl : Option (List String)) (memo : Memo) (res : Except DumpErr SVal) (m' : Memo)
    (h : dumps heap (fuel + 1) r b c ig incl memo = (res, m')) :
    (∀ j, res = .ok j → m' = memo) ∧ ∀ e, res = .error e → m' = [] := by
  constructor
  · intro j hj
    subst hj
    exact dumps_memo_ok heap (fuel + 1) r b c ig incl memo j m' h
  · intro e he
    subst he
    simp only [dumps] at h
    split at h
    · injection h with h1 h2
      exact h2.symm
    · split at h
      · injection h with h1 h2
        exact Except.noConfusion h1
      · injection h with h1 h2
        exact h2.symm

theorem claim_C5_witness :
    dumps heapC5ok 1 0 "w" false none none [(7, "anc")] = (.ok (.i 5), [(7, "anc")]) ∧
    ([(7, "anc")] : Memo) = [(7, "anc")] ∧
    dumps heapC5cyc 2 0 "w" false none none [] =
      (.error (.valueError "Circular reference detected: w contains parent w"), []) ∧
    ([] : Memo) = [] := by
  refine ⟨rfl, ?_, rfl, ?_⟩
  · exact (claim_C5 heapC5ok 0 0 "w" false none none [(7, "anc")] _ _ rfl).1 _ rfl
  · exact (claim_C5 heapC5cyc 1 0 "w" false none none [] _ _ rfl).2 _ rfl

/-- C3: re-entering the serializer with an identity already on the
ancestry stack fails with the circular-reference ValueError; the message
carries the offending subject (the path, or the type when the path is
empty), the verb — `contains` when the value is a mapping, sequence or
other iterable, `is` otherwise — and the ancestor's recorded display
name, and each of these occurs verbatim as a substring of the message. -/
theorem claim_C3 (heap : Heap) (fuel : Nat) (r : Ref) (b : String) (c : Bool)
    (ig incl : Option (List String)) (memo : Memo) (nm : String)
    (hmem : memoLookup memo r = some nm) :
    dumps heap (fuel + 1) r b c ig incl memo =
      (.error (.valueError (circularMessage (displaySubject b (heap r))
        (if pyIsIterable (heap r) then "contains" else "is") nm)), []) ∧
    strContains (circularMessage (displaySubject b (heap r))
        (if pyIsIterable (heap r) then "contains" else "is") nm) (displaySubject b (heap r)) ∧
    strContains (circularMessage (displaySubject b (heap r))
        (if pyIsIterable (heap r) then "contains" else "is") nm)
      (if pyIsIterable (heap r) then "contains" else "is") ∧
    strContains (circularMessage (displaySubject b (heap r))
        (if pyIsIterable (heap r) then "contains" else "is") nm) nm := by
  refine ⟨?_, circularMessage_contains _ _ _⟩
  simp only [dumps, hmem]

theorem claim_C3_witness :
    memoLookup [(0, "seq")] 0 = some "seq" ∧
    dumps heapC3cyc 4 0 "seq" false none none [(0, "seq")] =
      (.error (.valueError "Circular reference detected: seq contains parent seq"), []) := by
  refine ⟨rfl, ?_⟩
  exact (claim_C3 heapC3cyc 3 0 "seq" false none none [(0, "seq")] "seq" rfl).1

/-- C2: reconverging DAG edges are not cycles: if a value serializes
successfully from the pushed ancestry stack and restores it, then a
sequence holding that value twice as siblings serializes successfully —
no circular-reference error — to two structurally equal copies of the
value's serialization; the memo acts as a stack popped on each return,
not as a global visited-set. -/
theorem claim_C2 (heap : Heap) (fuel : Nat) (r v : Ref) (b : String) (c : Bool)
    (ig incl : Option (List String)) (memo : Memo) (j : SVal)
    (hshape : (heap r).isNone = false ∧ (heap r).prim = none ∧ (heap r).bytesVal = none ∧
      (heap r).jsonAttr = none ∧ (heap r).asDict = none ∧ (heap r).dateIso = none ∧
      (heap r).mapping = none ∧ (heap r).iterElems = some [v, v])
    (hmem : memoLookup memo r = none)
    (hv : dumps heap fuel v b c ig incl ((r, memoDisplay memo b (heap r)) :: memo)
        = (.ok j, (r, memoDisplay memo b (heap r)) :: memo)) :
    dumps heap (fuel + 1) r b c ig incl memo = (.ok (.list [j, j]), memo) := by
  obtain ⟨h1, h2, h3, h4, h5, h6, h7, h8⟩ := hshape
  have helems : dumpElems (fun v' nb m => dumps heap fuel v' nb c ig incl m) b [v, v]
      ((r, memoDisplay memo b (heap r)) :: memo)
      = (.ok [j, j], (r, memoDisplay memo b (heap r)) :: memo) :=
    dumpElems_forall2 (List.Forall₂.cons hv (List.Forall₂.cons hv List.Forall₂.nil))
  have hbody := @dumpsBody_iter (fun v' nb m => dumps heap fuel v' nb c ig incl m)
    _ b c ig incl ((r, memoDisplay memo b (heap r)) :: memo) _
    h1 h2 h3 h4 h5 h6 h7 h8
  rw [helems] at hbody
  simp only [dumps, hmem, hbody]
  rfl

theorem claim_C2_witness :
    dumps heapC2w 3 1 "b" false none none [(0, "b")] = (.ok (.list [.i 7]), [(0, "b")]) ∧
    dumps heapC2w 4 0 "b" false none none [] = (.ok (.list [.list [.i 7], .list [.i 7]]), []) := by
  refine ⟨rfl, ?_⟩
  exact claim_C2 heapC2w 3 0 1 "b" false none none [] (.list [.i 7])
    ⟨rfl, rfl, rfl, rfl, rfl, rfl, rfl, rfl⟩ rfl rfl

/-- C7: for a non-mapping iterable, every element is serialized with the
parent's own structural path (indices never extend the path, so
path-based policy applies uniformly to the elements), the output
preserves element order, and the empty sequence serializes to the empty
sequence rather than being omitted (take `elems = []`, forcing
`js = []`). -/
theorem claim_C7 (heap : Heap) (fuel : Nat) (r : Ref) (b : String) (c : Bool)
    (ig incl : Option (List String)) (memo : Memo) (elems : List Ref) (js : List SVal)
    (hshape : (heap r).isNone = false ∧ (heap r).prim = none ∧ (heap r).bytesVal = none ∧
      (heap r).jsonAttr = none ∧ (heap r).asDict = none ∧ (heap r).dateIso = none ∧
      (heap r).mapping = none ∧ (heap r).iterElems = some elems)
    (hmem : memoLookup memo r = none)
    (hkids : List.Forall₂
      (fun e j => dumps heap fuel e b c ig incl ((r, memoDisplay memo b (heap r)) :: memo)
        = (.ok j, (r, memoDisplay memo b (heap r)) :: memo)) elems js) :
    dumps heap (fuel + 1) r b c ig incl memo = (.ok (.list js), memo) := by
  obtain ⟨h1, h2, h3, h4, h5, h6, h7, h8⟩ := hshape
  have helems : dumpElems (fun v' nb m => dumps heap fuel v' nb c ig incl m) b elems
      ((r, memoDisplay memo b (heap r)) :: memo)
      = (.ok js, (r, memoDisplay memo b (heap r)) :: memo) :=
    dumpElems_forall2 hkids
  have hbody := @dumpsBody_iter (fun v' nb m => dumps heap fuel v' nb c ig incl m)
    _ b c ig incl ((r, memoDisplay memo b (heap r)) :: memo) _
    h1 h2 h3 h4 h5 h6 h7 h8
  rw [helems] at hbody
  simp only [dumps, hmem, hbody]
  rfl

theorem claim_C7_witness :
    dumps heapC7w 1 1 "p" false none none [(0, "p")] = (.ok (.i 1), [(0, "p")]) ∧
    dumps heapC7w 1 2 "p" false none none [(0, "p")] = (.ok (.s "a"), [(0, "p")]) ∧
    dumps heapC7w 2 0 "p" false none none [] = (.ok (.list [.i 1, .s "a"]), []) ∧
    dumps heapC7w 2 3 "p" false none none [] = (.ok (.list []), []) := by
  refine ⟨rfl, rfl, ?_, ?_⟩
  · exact claim_C7 heapC7w 1 0 "p" false none none [] [1, 2] [.i 1, .s "a"]
      ⟨rfl, rfl, rfl, rfl, rfl, rfl, rfl, rfl⟩ rfl
      (List.Forall₂.cons rfl (List.Forall₂.cons rfl List.Forall₂.nil))
  · exact claim_C7 heapC7w 1 3 "p" false none none [] [] []
      ⟨rfl, rfl, rfl, rfl, rfl, rfl, rfl, rfl⟩ rfl List.Forall₂.nil

/-- C4 as stated is false on the code: the guard does not bypass ancestry
tracking for primitives — it consults the stack and pushes an entry for
every value, primitives included (json.py lines 25-30 run before any type
dispatch).  At a memo already holding the primitive's identity, the
guarded call raises the circular-reference ValueError where the bare
serializer body returns the primitive unchanged. -/
theorem claim_C4_counterexample :
    dumps heapC4 1 0 "p" false none none [(0, "x")]
      = (.error (.valueError "Circular reference detected: p is parent x"), []) ∧
    dumpsBody (fun v nb m => dumps heapC4 0 v nb false none none m) (heapC4 0)
        "p" false none none [(0, "x")]
      = (.ok (.i 5), [(0, "x")]) ∧
    dumps heapC4 1 0 "p" false none none [(0, "x")]
      ≠ dumpsBody (fun v nb m => dumps heapC4 0 v nb false none none m) (heapC4 0)
          "p" false none none [(0, "x")] := by
  refine ⟨rfl, rfl, fun h => ?_⟩
  have h1 : (Except.error (DumpErr.valueError "Circular reference detected: p is parent x")
      : Except DumpErr SVal) = .ok (.i 5) := congrArg Prod.fst h
  exact Except.noConfusion h1

/-- C4 amended: the guard subjects primitives to the same ancestry
tracking as every other value — an entry is pushed and the stack is
consulted — but the serializer handles a primitive without recursing, so
the entry is popped at once: whenever the primitive's identity is not
already on the stack, the guarded call returns the primitive's value with
the ancestry stack unchanged, observationally matching direct
delegation. -/
theorem claim_C4_amended (heap : Heap) (fuel : Nat) (r : Ref) (b : String) (c : Bool)
    (ig incl : Option (List String)) (memo : Memo) (p : Prim)
    (hn : (heap r).isNone = false) (hp : (heap r).prim = some p)
    (hmem : memoLookup memo r = none) :
    dumps heap (fuel + 1) r b c ig incl memo = (.ok (primToSVal p), memo) := by
  have hbody : dumpsBody (fun v nb m => dumps heap fuel v nb c ig incl m) (heap r) b c ig incl
      ((r, memoDisplay memo b (heap r)) :: memo)
      = (.ok (primToSVal p), (r, memoDisplay memo b (heap r)) :: memo) := by
    unfold dumpsBody
    simp [hn, hp]
  simp only [dumps, hmem, hbody]
  rfl

theorem claim_C4_witness :
    memoLookup [(5, "anc")] 0 = none ∧
    dumps heapC4 1 0 "p" false none none [(5, "anc")] = (.ok (.i 5), [(5, "anc")]) := by
  refine ⟨rfl, ?_⟩
  exact claim_C4_amended heapC4 0 0 "p" false none none [(5, "anc")] (.i 5) rfl rfl rfl

/-- C10: an object whose `_as_dict` attribute exists but is not callable
(and that no earlier variant claims) makes serialization fail with the
ValueError `Invalid _as_dict attribute found on object` instead of
falling through to entity reflection; the guard clears the memo as the
error propagates. -/
theorem claim_C10 (heap : Heap) (fuel : Nat) (r : Ref) (b : String) (c : Bool)
    (ig incl : Option (List String)) (memo : Memo)
    (hn : (heap r).isNone = false) (hp : (heap r).prim = none)
    (hb : (heap r).bytesVal = none) (hj : (heap r).jsonAttr = none)
    (hd : (heap r).asDict = some DictCap.notCallable)
    (hmem : memoLookup memo r = none) :
    dumps heap (fuel + 1) r b c ig incl memo
      = (.error (.valueError "Invalid _as_dict attribute found on object"), []) := by
  have hbody : dumpsBody (fun v nb m => dumps heap fuel v nb c ig incl m) (heap r) b c ig incl
      ((r, memoDisplay memo b (heap r)) :: memo)
      = (.error (.valueError "Invalid _as_dict attribute found on object"),
          (r, memoDisplay memo b (heap r)) :: memo) := by
    unfold dumpsBody
    simp [hn, hp, hb, hj, hd]
  simp only [dumps, hmem, hbody]

theorem claim_C10_witness :
    (heapC10 0).asDict = some DictCap.notCallable ∧
    dumps heapC10 1 0 "x" false none none []
      = (.error (.valueError "Invalid _as_dict attribute found on object"), []) := by
  refine ⟨rfl, ?_⟩
  exact claim_C10 heapC10 0 0 "x" false none none [] rfl rfl rfl rfl rfl rfl

/-- First-match-wins for the dispatch chain, decided over the finite
space of branch conditions. -/
lemma bits_first : ∀ b0 b1 b2 b3 b4 b5 b6 b7 : Bool,
    matchesBits b0 b1 b2 b3 b4 b5 b6 b7 (classifyBits b0 b1 b2 b3 b4 b5 b6 b7) = true ∧
    ∀ v : Variant, variantIdx v < variantIdx (classifyBits b0 b1 b2 b3 b4 b5 b6 b7) →
      matchesBits b0 b1 b2 b3 b4 b5 b6 b7 v = false := by decide

/-- C6: classification is a strict ordered dispatch with first match
winning over the variants null, primitive, bytes, self-describing,
dict-convertible, date, mapping, iterable, entity: the classified variant
matches and no earlier variant does; and for every object exposing both
the self-representation (`_json`) and the dict-conversion (`_as_dict`)
capability (with the still-earlier variants absent), the guarded
serializer takes the self-describing branch, whatever the later
capabilities hold. -/
theorem claim_C6 :
    (∀ obj : PyObj, matchesVariant obj (classify obj) = true ∧
      ∀ v : Variant, variantIdx v < variantIdx (classify obj) → matchesVariant obj v = false) ∧
    (∀ (heap : Heap) (fuel : Nat) (r : Ref) (b : String) (c : Bool)
        (ig incl : Option (List String)) (memo : Memo) (jc : JsonCap) (d : DictCap),
      (heap r).isNone = false → (heap r).prim = none → (heap r).bytesVal = none →
      (heap r).jsonAttr = some jc → (heap r).asDict = some d → memoLookup memo r = none →
      dumps heap (fuel + 1) r b c ig incl memo = selfDescribingStep jc memo) := by
  constructor
  · intro obj
    have hb := bits_first obj.isNone obj.prim.isSome obj.bytesVal.isSome obj.jsonAttr.isSome
      obj.asDict.isSome obj.dateIso.isSome obj.mapping.isSome obj.iterElems.isSome
    have hcl : classify obj = classifyBits obj.isNone obj.prim.isSome obj.bytesVal.isSome
        obj.jsonAttr.isSome obj.asDict.isSome obj.dateIso.isSome obj.mapping.isSome
        obj.iterElems.isSome := rfl
    have hm : ∀ v : Variant, matchesVariant obj v = matchesBits obj.isNone obj.prim.isSome
        obj.bytesVal.isSome obj.jsonAttr.isSome obj.asDict.isSome obj.dateIso.isSome
        obj.mapping.isSome obj.iterElems.isSome v := by
      intro v
      cases v <;> rfl
    refine ⟨?_, fun v hv => ?_⟩
    · rw [hm, hcl]
      exact hb.1
    · rw [hcl] at hv
      rw [hm]
      exact hb.2 v hv
  · intro heap fuel r b c ig incl memo jc d hn hp hb hj hd hmem
    cases jc with
    | callableRet res =>
      have hbody : dumpsBody (fun v nb m => dumps heap fuel v nb c ig incl m) (heap r) b c ig incl
          ((r, memoDisplay memo b (heap r)) :: memo)
          = (.ok (.raw res), (r, memoDisplay memo b (heap r)) :: memo) := by
        unfold dumpsBody
        simp [hn, hp, hb, hj]
      simp only [dumps, hmem, hbody, selfDescribingStep]
      rfl
    | strVal s =>
      have hbody : dumpsBody (fun v nb m => dumps heap fuel v nb c ig incl m) (heap r) b c ig incl
          ((r, memoDisplay memo b (heap r)) :: memo)
          = (.ok (.s s), (r, memoDisplay memo b (heap r)) :: memo) := by
        unfold dumpsBody
        simp [hn, hp, hb, hj]
      simp only [dumps, hmem, hbody, selfDescribingStep]
      rfl
    | invalid =>
      have hbody : dumpsBody (fun v nb m => dumps heap fuel v nb c ig incl m) (heap r) b c ig incl
          ((r, memoDisplay memo b (heap r)) :: memo)
          = (.error (.valueError "Invalid _json attribute found on object"),
              (r, memoDisplay memo b (heap r)) :: memo) := by
        unfold dumpsBody
        simp [hn, hp, hb, hj]
      simp only [dumps, hmem, hbody, selfDescribingStep]

theorem claim_C6_witness :
    matchesVariant objC6 (classify objC6) = true ∧
    matchesVariant objC6 Variant.vnull = false ∧
    dumps heapC6 1 0 "x" false none none [] = (.ok (.s "selfrep"), []) := by
  refine ⟨(claim_C6.1 objC6).1, ?_, ?_⟩
  · exact (claim_C6.1 objC6).2 Variant.vnull (by decide)
  · exact claim_C6.2 heapC6 0 0 "x" false none none [] (JsonCap.strVal "selfrep")
      (DictCap.callableRet 1) rfl rfl rfl rfl rfl rfl

/-- C9: for an entity (no earlier variant matches), if the reflective
attribute pass retains no attributes, serialization emits the value's
plain textual representation string `str(obj)` instead of an empty
mapping; if it retains at least one, the accumulated mapping is
emitted. -/
theorem claim_C9 (heap : Heap) (fuel : Nat) (r : Ref) (b : String) (c : Bool)
    (ig incl : Option (List String)) (memo : Memo) (kvs : List (String × SVal)) (m1 : Memo)
    (hshape : (heap r).isNone = false ∧ (heap r).prim = none ∧ (heap r).bytesVal = none ∧
      (heap r).jsonAttr = none ∧ (heap r).asDict = none ∧ (heap r).dateIso = none ∧
      (heap r).mapping = none ∧ (heap r).iterElems = none)
    (hmem : memoLookup memo r = none)
    (hloop : dumpAttrs (fun v nb m => dumps heap fuel v nb c ig incl m) b c ig incl
        (entityRelationships (heap r)) (entityTransients (heap r)) (heap r).dirAttrs []
        ((r, memoDisplay memo b (heap r)) :: memo) = (.ok kvs, m1)) :
    dumps heap (fuel + 1) r b c ig incl memo =
      (if kvs.isEmpty then (.ok (.s (heap r).strRepr), m1.tail)
       else (.ok (.dict kvs), m1.tail)) := by
  obtain ⟨h1, h2, h3, h4, h5, h6, h7, h8⟩ := hshape
  have hbody : dumpsBody (fun v nb m => dumps heap fuel v nb c ig incl m) (heap r) b c ig incl
      ((r, memoDisplay memo b (heap r)) :: memo)
      = (if kvs.isEmpty then (.ok (.s (heap r).strRepr), m1) else (.ok (.dict kvs), m1)) := by
    unfold dumpsBody
    simp [h1, h2, h3, h4, h5, h6, h7, h8, hloop]
  simp only [dumps, hmem]
  cases hk : kvs.isEmpty
  · simp only [hk, Bool.false_eq_true, if_false] at hbody ⊢
    simp only [hbody]
  · simp only [hk, if_true] at hbody ⊢
    simp only [hbody]

theorem claim_C9_witness :
    dumpAttrs (fun v nb m => dumps heapC9 1 v nb false none none m) "" false none none
      (entityRelationships (heapC9 0)) (entityTransients (heapC9 0)) (heapC9 0).dirAttrs []
      [(0, "$root")] = (.ok [], [(0, "$root")]) ∧
    dumps heapC9 2 0 "" false none none [] = (.ok (.s "Opaque()"), []) ∧
    dumpAttrs (fun v nb m => dumps heapC9 1 v nb false none none m) "" false none none
      (entityRelationships (heapC9 2)) (entityTransients (heapC9 2)) (heapC9 2).dirAttrs []
      [(2, "$root")] = (.ok [("name", .i 9)], [(2, "$root")]) ∧
    dumps heapC9 2 2 "" false none none [] = (.ok (.dict [("name", .i 9)]), []) := by
  refine ⟨rfl, ?_, rfl, ?_⟩
  · exact claim_C9 heapC9 1 0 "" false none none [] [] [(0, "$root")]
      ⟨rfl, rfl, rfl, rfl, rfl, rfl, rfl, rfl⟩ rfl rfl
  · exact claim_C9 heapC9 1 2 "" false none none [] [("name", .i 9)] [(2, "$root")]
      ⟨rfl, rfl, rfl, rfl, rfl, rfl, rfl, rfl⟩ rfl rfl

/-- C1 as stated is false on the code: when the caller supplies no
relation whitelist (`include_relationships = None`), `_check_whitelist`
returns true for every path (json.py line 157), so a declared relation
attribute is serialized rather than omitted.  Serializing an entity with
declared relationship `children` and no whitelist yields an output that
contains the `children` key.  (The repository's tests rely on this: with
no whitelist, a cycle through `children.parent` is detected, which
requires the relation to be descended into.) -/
theorem claim_C1_counterexample :
    dumps heapC1 3 0 "" false none none [] =
      (.ok (.dict [("children", .i 7), ("name", .s "Dad")]), []) ∧
    ("children", SVal.i 7) ∈ [("children", SVal.i 7), ("name", SVal.s "Dad")] :=
  ⟨rfl, List.mem_cons_self _ _⟩

/-- C1 amended: with no relation whitelist supplied, the whitelist check
passes for every path, so declared relations are serialized exactly like
ordinary attributes — the relationships set has no effect at all on the
entity reflection loop; relations are hidden only when a whitelist is
supplied and the child path is not a member of it. -/
theorem claim_C1_amended :
    (∀ p : String, _check_whitelist p none = true) ∧
    ∀ (f : RecFn) (b : String) (c : Bool) (ig : Option (List String))
      (rels rels' trans : List String) (attrs : List (String × AttrVal))
      (values : List (String × SVal)) (memo : Memo),
      dumpAttrs f b c ig none rels trans attrs values memo
        = dumpAttrs f b c ig none rels' trans attrs values memo := by
  refine ⟨fun p => rfl, ?_⟩
  intro f b c ig rels rels' trans attrs
  induction attrs with
  | nil =>
    intro values memo
    rfl
  | cons attr rest ih =>
    intro values memo
    obtain ⟨name, av⟩ := attr
    simp only [dumpAttrs, _check_whitelist, Bool.not_true, Bool.and_false, Bool.false_eq_true,
      if_false]
    split
    · split
      · cases av with
        | missing => exact ih _ memo
        | nonData => exact ih _ memo
        | val rv =>
          cases hf : f rv (_append_path b name) memo with
          | mk res1 m1 =>
            cases res1 with
            | ok j =>
              simp only [hf]
              exact ih _ m1
            | error e =>
              simp only [hf]
      · exact ih _ memo
    · exact ih _ memo

/-- C8: blacklist and relation-whitelist filtering are exact-path
membership tests on the structural dotted path, never prefix or glob
matches: with a supplied set, `_check_whitelist` admits exactly the
member paths and `_is_blacklisted_attribute` suppresses exactly the
member paths; concretely, whitelisting `children` admits the relation at
path `children` but not the deeper relation at path `children.siblings`,
so the serialized child contains `name` but no `siblings` key. -/
theorem claim_C8 :
    (∀ (l : List String) (p : String), _check_whitelist p (some l) = l.contains p) ∧
    (∀ (l : List String) (p : String), _is_blacklisted_attribute p (some l) = l.contains p) ∧
    _check_whitelist "children" (some ["children"]) = true ∧
    _check_whitelist "children.siblings" (some ["children"]) = false ∧
    dumps heapC8 6 0 "" false none (some ["children"]) [] =
      (.ok (.dict [("children", .list [.dict [("name", .s "Kid")]]), ("name", .s "Dad")]), []) :=
  ⟨fun _ _ => rfl, fun _ _ => rfl, rfl, rfl, rfl⟩
